import Mathlib

/-!
Verification of the appointment lifecycle of the caregiver/job platform.

The definitions below are a shallow embedding of the appointment endpoints of
`src/main.py` (the `appointment_router` handlers) together with the data model
of `src/database/models.py`:

* `AppointmentStatus` mirrors the `AppointmentStatus` enum.
* `Appointment` mirrors a row of the `APPOINTMENT` table
  (`appointment_id`, `caregiver_user_id`, `member_user_id`, `appointment_date`,
  `appointment_time`, `work_hours`, `status`).  Calendar dates and times of day
  are modelled as naturals (only equality and order on dates are used by the
  code); `work_hours` is a rational (the code stores a float compared with 0).
* `DB` models the persistent store: the `MEMBER` and `CAREGIVER` tables are
  lists of user ids (only existence checks are run against them), the
  `APPOINTMENT` table is a list of rows, and `next_id` models the
  auto-increment id assigned on INSERT (`LAST_INSERT_ID()`).
* Each handler becomes a function `DB → Except ApiError α × DB`: the second
  component is the store after the call (the handlers either raise before any
  write or commit a single UPDATE/INSERT; on exception they roll back, so an
  error leaves the store as it was).
* `ApiError` has one constructor per distinct `HTTPException` raise site of the
  appointment handlers; `ApiError.errClass` maps it onto the spec's taxonomy
  (NotFound / Forbidden / InvalidState / InvalidInput / Conflict) and
  `ApiError.httpStatus` onto the HTTP code the handler raises.

Python truthiness notes baked into the embedding: in `update_appointment` the
checks `if appointment_update.appointment_date ...` and
`if ... or appointment_update.appointment_time` test truthiness, which for
`datetime.date`/`datetime.time` objects coincides with `is not None`
(`Option.isSome` here); in `get_member_appointments` the check
`if status_filter:` is false for the empty string as well as for `None`.
-/

inductive AppointmentStatus where
  | pending
  | confirmed
  | declined
  | cancelled
  | completed
deriving DecidableEq, Repr

/-- Statuses excluded by `status NOT IN ('cancelled', 'declined', 'completed')`
in the conflict queries of `create_appointment` and `update_appointment`. -/
def AppointmentStatus.isTerminal : AppointmentStatus → Bool
  | .cancelled => true
  | .declined => true
  | .completed => true
  | .pending => false
  | .confirmed => false

/-- A row of the `APPOINTMENT` table. -/
structure Appointment where
  appointment_id : Nat
  caregiver_user_id : Nat
  member_user_id : Nat
  appointment_date : Nat
  appointment_time : Nat
  work_hours : Rat
  status : AppointmentStatus
deriving DecidableEq, Repr

/-- Request body of `POST /api/appointments` (`AppointmentCreate`). -/
structure AppointmentCreate where
  caregiver_user_id : Nat
  appointment_date : Nat
  appointment_time : Nat
  work_hours : Rat
deriving DecidableEq, Repr

/-- Request body of `PUT /api/appointments/{id}` (`AppointmentUpdate`);
every field is optional (partial update). -/
structure AppointmentUpdate where
  appointment_date : Option Nat
  appointment_time : Option Nat
  work_hours : Option Rat
deriving DecidableEq, Repr

/-- The persistent store seen by the appointment handlers. -/
structure DB where
  members : List Nat
  caregivers : List Nat
  appointments : List Appointment
  next_id : Nat
deriving DecidableEq, Repr

/-- One constructor per `HTTPException` raise site of the appointment
handlers. -/
inductive ApiError where
  | memberNotFound
  | caregiverNotFound
  | appointmentNotFound
  | forbidden
  | pastDate
  | nonPositiveHours
  | conflict
  | invalidState (s : AppointmentStatus)
  | invalidStatusFilter
deriving DecidableEq, Repr

/-- The spec's error taxonomy (§7). -/
inductive ErrorClass where
  | notFound
  | forbidden
  | invalidState
  | invalidInput
  | conflict
deriving DecidableEq, Repr

def ApiError.errClass : ApiError → ErrorClass
  | .memberNotFound => .notFound
  | .caregiverNotFound => .notFound
  | .appointmentNotFound => .notFound
  | .forbidden => .forbidden
  | .pastDate => .invalidInput
  | .nonPositiveHours => .invalidInput
  | .conflict => .conflict
  | .invalidState _ => .invalidState
  | .invalidStatusFilter => .invalidInput

/-- The HTTP status code each raise site uses. -/
def ApiError.httpStatus : ApiError → Nat
  | .memberNotFound => 404
  | .caregiverNotFound => 404
  | .appointmentNotFound => 404
  | .forbidden => 403
  | .pastDate => 400
  | .nonPositiveHours => 400
  | .conflict => 409
  | .invalidState _ => 400
  | .invalidStatusFilter => 400

/-- Row predicate of the conflict query:
`caregiver_user_id = :c AND appointment_date = :d AND appointment_time = :t
AND status NOT IN ('cancelled', 'declined', 'completed')`. -/
def conflictsAt (c d t : Nat) (a : Appointment) : Bool :=
  a.caregiver_user_id == c && a.appointment_date == d && a.appointment_time == t &&
    !a.status.isTerminal

/-- Conflict query of `create_appointment` (any non-terminal row of the same
caregiver at the same date and time). -/
def hasConflict (appts : List Appointment) (c d t : Nat) : Bool :=
  appts.any (conflictsAt c d t)

/-- Conflict query of `update_appointment` (same, with
`AND appointment_id != :appointment_id`). -/
def hasConflictExcluding (appts : List Appointment) (c d t excludeId : Nat) : Bool :=
  appts.any fun a => conflictsAt c d t a && a.appointment_id != excludeId

/-- `POST /api/appointments` — `create_appointment` in `src/main.py`.
Checks run in source order: member exists, caregiver exists, date not in the
past, `work_hours > 0`, no scheduling conflict; then a single INSERT with
status `'pending'`.  Returns the id of the inserted row. -/
def create_appointment (member_user_id : Nat) (ad : AppointmentCreate) (today : Nat)
    (db : DB) : Except ApiError Nat × DB :=
  if member_user_id ∉ db.members then
    (.error .memberNotFound, db)
  else if ad.caregiver_user_id ∉ db.caregivers then
    (.error .caregiverNotFound, db)
  else if ad.appointment_date < today then
    (.error .pastDate, db)
  else if ad.work_hours ≤ 0 then
    (.error .nonPositiveHours, db)
  else if hasConflict db.appointments ad.caregiver_user_id ad.appointment_date
      ad.appointment_time then
    (.error .conflict, db)
  else
    let row : Appointment :=
      { appointment_id := db.next_id
        caregiver_user_id := ad.caregiver_user_id
        member_user_id := member_user_id
        appointment_date := ad.appointment_date
        appointment_time := ad.appointment_time
        work_hours := ad.work_hours
        status := .pending }
    (.ok db.next_id,
      { db with appointments := db.appointments ++ [row], next_id := db.next_id + 1 })

/-- `if appointment_update.appointment_date and appointment_update.appointment_date < date.today()`. -/
def pastOpt (od : Option Nat) (today : Nat) : Bool :=
  match od with
  | some d => decide (d < today)
  | none => false

/-- `if appointment_update.work_hours is not None and appointment_update.work_hours <= 0`. -/
def nonPosOpt (ow : Option Rat) : Bool :=
  match ow with
  | some w => decide (w ≤ 0)
  | none => false

/-- The dynamic `UPDATE ... SET` clause applied to the matched row: supplied
fields replace the stored ones, and `status = 'pending'` is appended exactly
when a date or a time was supplied. -/
def applyUpdate (u : AppointmentUpdate) (a : Appointment) : Appointment :=
  { a with
    appointment_date := u.appointment_date.getD a.appointment_date
    appointment_time := u.appointment_time.getD a.appointment_time
    work_hours := u.work_hours.getD a.work_hours
    status :=
      if u.appointment_date.isSome || u.appointment_time.isSome then
        AppointmentStatus.pending
      else a.status }

/-- `PUT /api/appointments/{id}` — `update_appointment` in `src/main.py`.
Source order: lookup (`NotFound`), owning-member check (`Forbidden`), status in
{pending, confirmed} (`InvalidState`), supplied date not past, supplied hours
positive, conflict check against the same caregiver excluding this id when a
date or time was supplied, then either no write (nothing supplied) or one
UPDATE of the matched row. -/
def update_appointment (appointment_id member_user_id : Nat) (u : AppointmentUpdate)
    (today : Nat) (db : DB) : Except ApiError Unit × DB :=
  match db.appointments.find? (fun a => a.appointment_id == appointment_id) with
  | none => (.error .appointmentNotFound, db)
  | some row =>
    if row.member_user_id ≠ member_user_id then
      (.error .forbidden, db)
    else if ¬ (row.status = .pending ∨ row.status = .confirmed) then
      (.error (.invalidState row.status), db)
    else if pastOpt u.appointment_date today then
      (.error .pastDate, db)
    else if nonPosOpt u.work_hours then
      (.error .nonPositiveHours, db)
    else if (u.appointment_date.isSome || u.appointment_time.isSome) &&
        hasConflictExcluding db.appointments row.caregiver_user_id
          (u.appointment_date.getD row.appointment_date)
          (u.appointment_time.getD row.appointment_time) appointment_id then
      (.error .conflict, db)
    else if u.appointment_date.isNone && u.appointment_time.isNone &&
        u.work_hours.isNone then
      (.ok (), db)
    else
      (.ok (), { db with appointments := db.appointments.map fun a =>
          if a.appointment_id == appointment_id then applyUpdate u a else a })

/-- `DELETE /api/appointments/{id}` — `cancel_appointment` in `src/main.py`.
Lookup, member-or-caregiver permission check, status in {pending, confirmed},
then `UPDATE ... SET status = 'cancelled'` (no row removal). -/
def cancel_appointment (appointment_id user_id : Nat) (db : DB) :
    Except ApiError Unit × DB :=
  match db.appointments.find? (fun a => a.appointment_id == appointment_id) with
  | none => (.error .appointmentNotFound, db)
  | some row =>
    if row.member_user_id ≠ user_id ∧ row.caregiver_user_id ≠ user_id then
      (.error .forbidden, db)
    else if ¬ (row.status = .pending ∨ row.status = .confirmed) then
      (.error (.invalidState row.status), db)
    else
      (.ok (), { db with appointments := db.appointments.map fun a =>
          if a.appointment_id == appointment_id then
            { a with status := AppointmentStatus.cancelled }
          else a })

/-- `PATCH /api/appointments/{id}/confirm` — `confirm_appointment` in
`src/main.py`.  Lookup, owning-caregiver check, status must be `'pending'`,
then `UPDATE ... SET status = 'confirmed'`. -/
def confirm_appointment (appointment_id caregiver_user_id : Nat) (db : DB) :
    Except ApiError Unit × DB :=
  match db.appointments.find? (fun a => a.appointment_id == appointment_id) with
  | none => (.error .appointmentNotFound, db)
  | some row =>
    if row.caregiver_user_id ≠ caregiver_user_id then
      (.error .forbidden, db)
    else if row.status ≠ .pending then
      (.error (.invalidState row.status), db)
    else
      (.ok (), { db with appointments := db.appointments.map fun a =>
          if a.appointment_id == appointment_id then
            { a with status := AppointmentStatus.confirmed }
          else a })

/-- `PATCH /api/appointments/{id}/decline` — `decline_appointment` in
`src/main.py`.  Same shape as confirm, target status `'declined'`. -/
def decline_appointment (appointment_id caregiver_user_id : Nat) (db : DB) :
    Except ApiError Unit × DB :=
  match db.appointments.find? (fun a => a.appointment_id == appointment_id) with
  | none => (.error .appointmentNotFound, db)
  | some row =>
    if row.caregiver_user_id ≠ caregiver_user_id then
      (.error .forbidden, db)
    else if row.status ≠ .pending then
      (.error (.invalidState row.status), db)
    else
      (.ok (), { db with appointments := db.appointments.map fun a =>
          if a.appointment_id == appointment_id then
            { a with status := AppointmentStatus.declined }
          else a })

/-- `PATCH /api/appointments/{id}/complete` — `complete_appointment` in
`src/main.py`.  Lookup, member-or-caregiver permission check, status must be
`'confirmed'`, then `UPDATE ... SET status = 'completed'`. -/
def complete_appointment (appointment_id user_id : Nat) (db : DB) :
    Except ApiError Unit × DB :=
  match db.appointments.find? (fun a => a.appointment_id == appointment_id) with
  | none => (.error .appointmentNotFound, db)
  | some row =>
    if row.member_user_id ≠ user_id ∧ row.caregiver_user_id ≠ user_id then
      (.error .forbidden, db)
    else if row.status ≠ .confirmed then
      (.error (.invalidState row.status), db)
    else
      (.ok (), { db with appointments := db.appointments.map fun a =>
          if a.appointment_id == appointment_id then
            { a with status := AppointmentStatus.completed }
          else a })

/-- `AppointmentStatus(status_filter)`: the enum constructor, `none` when the
string is not one of the five enum values (Python raises `ValueError`). -/
def statusOfString (s : String) : Option AppointmentStatus :=
  if s = "pending" then some .pending
  else if s = "confirmed" then some .confirmed
  else if s = "declined" then some .declined
  else if s = "cancelled" then some .cancelled
  else if s = "completed" then some .completed
  else none

/-- `ORDER BY a.appointment_date DESC, a.appointment_time DESC`. -/
def apptOrder (a b : Appointment) : Bool :=
  decide (b.appointment_date < a.appointment_date) ||
    (b.appointment_date == a.appointment_date &&
      decide (b.appointment_time ≤ a.appointment_time))

/-- Insertion step of the ORDER BY model. -/
def insertByOrder (a : Appointment) : List Appointment → List Appointment
  | [] => [a]
  | b :: l => if apptOrder a b then a :: b :: l else b :: insertByOrder a l

/-- Sorting model of the ORDER BY clause. -/
def sortByOrder : List Appointment → List Appointment
  | [] => []
  | a :: l => insertByOrder a (sortByOrder l)

/-- Row predicate of the listing query of `get_member_appointments`: the WHERE
clause on `member_user_id` plus the `JOIN CAREGIVER`/`JOIN MEMBER` conditions
(a row whose caregiver or member is missing from the reference tables is
dropped by the joins). -/
def memberListingRow (db : DB) (member_user_id : Nat) (a : Appointment) : Bool :=
  a.member_user_id == member_user_id &&
    db.caregivers.contains a.caregiver_user_id &&
    db.members.contains a.member_user_id

/-- `GET /api/appointments/member/{id}` — `get_member_appointments` in
`src/main.py`.  Member existence check first; then `if status_filter:` — a
`None` or empty filter applies no status restriction, a non-empty filter is
parsed through the enum (`InvalidInput` on failure) and added to the WHERE
clause; the result is ordered by date and time descending. -/
def get_member_appointments (member_user_id : Nat) (status_filter : Option String)
    (db : DB) : Except ApiError (List Appointment) × DB :=
  if member_user_id ∉ db.members then
    (.error .memberNotFound, db)
  else
    let base := db.appointments.filter (memberListingRow db member_user_id)
    match status_filter with
    | none => (.ok (sortByOrder base), db)
    | some s =>
      if s = "" then (.ok (sortByOrder base), db)
      else
        match statusOfString s with
        | none => (.error .invalidStatusFilter, db)
        | some st =>
          (.ok (sortByOrder (base.filter (fun a => a.status == st))), db)

/-- The appointment operations of the lifecycle manager, for statements that
quantify over "any single operation". -/
inductive Operation where
  | createOp (member_user_id : Nat) (ad : AppointmentCreate)
  | updateOp (appointment_id member_user_id : Nat) (u : AppointmentUpdate)
  | cancelOp (appointment_id user_id : Nat)
  | confirmOp (appointment_id caregiver_user_id : Nat)
  | declineOp (appointment_id caregiver_user_id : Nat)
  | completeOp (appointment_id user_id : Nat)

/-- Dispatch one operation against the store (the created id is discarded so
all operations share a result type). -/
def runOp (op : Operation) (today : Nat) (db : DB) : Except ApiError Unit × DB :=
  match op with
  | .createOp m ad =>
    let r := create_appointment m ad today db
    (r.1.map (fun _ => ()), r.2)
  | .updateOp i m u => update_appointment i m u today db
  | .cancelOp i uid => cancel_appointment i uid db
  | .confirmOp i c => confirm_appointment i c db
  | .declineOp i c => decline_appointment i c db
  | .completeOp i uid => complete_appointment i uid db

/-- Number of non-terminal appointments of caregiver `c` at `(d, t)`. -/
def nonTerminalCount (appts : List Appointment) (c d t : Nat) : Nat :=
  appts.countP (conflictsAt c d t)

/-- The no-double-booking invariant of the spec (§3, §8). -/
def NoDouble (appts : List Appointment) : Prop :=
  ∀ c d t, nonTerminalCount appts c d t ≤ 1

/-- Well-formedness of the store representation: `appointment_id` is the
primary key of `APPOINTMENT`, so ids are pairwise distinct. -/
def IdsNodup (appts : List Appointment) : Prop :=
  (appts.map Appointment.appointment_id).Nodup


/-! ### Basic lemmas about the conflict predicate and counts -/

lemma conflictsAt_iff {c d t : Nat} {a : Appointment} :
    conflictsAt c d t a = true ↔
      a.caregiver_user_id = c ∧ a.appointment_date = d ∧ a.appointment_time = t ∧
        a.status.isTerminal = false := by
  simp [conflictsAt, and_assoc]

lemma conflictsAt_fields (c d t : Nat) (a b : Appointment)
    (hc : b.caregiver_user_id = a.caregiver_user_id)
    (hd : b.appointment_date = a.appointment_date)
    (ht : b.appointment_time = a.appointment_time)
    (hs : b.status = a.status) :
    conflictsAt c d t b = conflictsAt c d t a := by
  simp [conflictsAt, hc, hd, ht, hs]

lemma nonTerminalCount_eq_zero {l : List Appointment} {c d t : Nat}
    (h : ∀ a ∈ l, conflictsAt c d t a = false) :
    nonTerminalCount l c d t = 0 := by
  rw [nonTerminalCount, List.countP_eq_zero]
  intro a ha
  simp [h a ha]

lemma hasConflict_false_count {l : List Appointment} {c d t : Nat}
    (h : hasConflict l c d t = false) : nonTerminalCount l c d t = 0 := by
  apply nonTerminalCount_eq_zero
  intro a ha
  have h' : ∀ a ∈ l, conflictsAt c d t a = false := by
    simpa [hasConflict, List.any_eq_false] using h
  exact h' a ha

/-- Appending a row that conflicts with nothing already stored preserves the
no-double-booking invariant. -/
lemma noDouble_append (l : List Appointment) (row : Appointment)
    (hnd : NoDouble l)
    (hnew : ∀ c d t, conflictsAt c d t row = true → nonTerminalCount l c d t = 0) :
    NoDouble (l ++ [row]) := by
  intro c d t
  have hold := hnd c d t
  rw [nonTerminalCount, List.countP_append] at *
  by_cases hr : conflictsAt c d t row = true
  · have h0 := hnew c d t hr
    rw [nonTerminalCount] at h0
    simp [List.countP_cons, hr, h0]
  · have hr' : conflictsAt c d t row = false := by simpa using hr
    simpa [List.countP_cons, hr'] using hold

/-- Replacing one row in place preserves the invariant provided the new row
either conflicts no more widely than the old one, or conflicts with none of
the other rows. -/
lemma noDouble_replace (l₁ l₂ : List Appointment) (row newRow : Appointment)
    (hnd : NoDouble (l₁ ++ row :: l₂))
    (hcase : ∀ c d t, conflictsAt c d t newRow = true →
      conflictsAt c d t row = true ∨
        ((∀ a ∈ l₁, conflictsAt c d t a = false) ∧
          (∀ a ∈ l₂, conflictsAt c d t a = false))) :
    NoDouble (l₁ ++ newRow :: l₂) := by
  intro c d t
  have hold := hnd c d t
  rw [nonTerminalCount, List.countP_append, List.countP_cons] at *
  by_cases hnew : conflictsAt c d t newRow = true
  · rcases hcase c d t hnew with hrow | ⟨ha₁, ha₂⟩
    · simp only [hnew, hrow, if_pos] at hold ⊢
      omega
    · have z₁ : l₁.countP (conflictsAt c d t) = 0 :=
        List.countP_eq_zero.mpr (by intro a ha; simp [ha₁ a ha])
      have z₂ : l₂.countP (conflictsAt c d t) = 0 :=
        List.countP_eq_zero.mpr (by intro a ha; simp [ha₂ a ha])
      simp [hnew, z₁, z₂]
  · have hnew' : conflictsAt c d t newRow = false := by simpa using hnew
    simp only [hnew', if_neg, Bool.false_eq_true, not_false_iff, if_false] at *
    split at hold <;> omega

/-- A successful lookup in a store with pairwise-distinct ids splits the store
around the unique matching row. -/
lemma find?_decomp (l : List Appointment) (tid : Nat) (row : Appointment)
    (hfind : l.find? (fun a => a.appointment_id == tid) = some row)
    (hids : IdsNodup l) :
    ∃ l₁ l₂, l = l₁ ++ row :: l₂ ∧ row.appointment_id = tid ∧
      (∀ a ∈ l₁, a.appointment_id ≠ tid) ∧ (∀ a ∈ l₂, a.appointment_id ≠ tid) := by
  have hmem : row ∈ l := List.mem_of_find?_eq_some hfind
  have hid : row.appointment_id = tid := by
    have := List.find?_some hfind
    simpa using this
  obtain ⟨l₁, l₂, rfl⟩ := List.append_of_mem hmem
  rw [IdsNodup, List.map_append, List.map_cons, List.nodup_append] at hids
  obtain ⟨-, hnd2, hdisj⟩ := hids
  rw [List.nodup_cons] at hnd2
  refine ⟨l₁, l₂, rfl, hid, ?_, ?_⟩
  · intro a ha hcontra
    exact hdisj (List.mem_map_of_mem _ ha)
      (by rw [hcontra, ← hid]; exact List.mem_cons_self _ _)
  · intro a ha hcontra
    exact hnd2.1 (by rw [hid, ← hcontra]; exact List.mem_map_of_mem _ ha)

/-- The per-row UPDATE only rewrites the matched row. -/
lemma map_replace (l₁ l₂ : List Appointment) (row : Appointment) (tid : Nat)
    (f : Appointment → Appointment) (hrow : row.appointment_id = tid)
    (h₁ : ∀ a ∈ l₁, a.appointment_id ≠ tid) (h₂ : ∀ a ∈ l₂, a.appointment_id ≠ tid) :
    (l₁ ++ row :: l₂).map (fun a => if a.appointment_id == tid then f a else a)
      = l₁ ++ f row :: l₂ := by
  rw [List.map_append, List.map_cons]
  have e₁ : l₁.map (fun a => if a.appointment_id == tid then f a else a) = l₁ := by
    conv_rhs => rw [← List.map_id l₁]
    exact List.map_congr_left (fun a ha => by simp [h₁ a ha])
  have e₂ : l₂.map (fun a => if a.appointment_id == tid then f a else a) = l₂ := by
    conv_rhs => rw [← List.map_id l₂]
    exact List.map_congr_left (fun a ha => by simp [h₂ a ha])
  rw [e₁, e₂]
  simp [hrow]

/-! ### Inversion lemmas: what a successful call implies -/

lemma create_ok_inv {m : Nat} {ad : AppointmentCreate} {today : Nat} {db : DB}
    {i : Nat} {db' : DB}
    (h : create_appointment m ad today db = (.ok i, db')) :
    m ∈ db.members ∧ ad.caregiver_user_id ∈ db.caregivers ∧
    ¬ ad.appointment_date < today ∧ ¬ ad.work_hours ≤ 0 ∧
    hasConflict db.appointments ad.caregiver_user_id ad.appointment_date
      ad.appointment_time = false ∧
    i = db.next_id ∧
    db' = { db with
      appointments := db.appointments ++
        [⟨db.next_id, ad.caregiver_user_id, m, ad.appointment_date,
          ad.appointment_time, ad.work_hours, .pending⟩],
      next_id := db.next_id + 1 } := by
  unfold create_appointment at h
  split at h
  · exact absurd h (by simp)
  split at h
  · exact absurd h (by simp)
  split at h
  · exact absurd h (by simp)
  split at h
  · exact absurd h (by simp)
  split at h
  · exact absurd h (by simp)
  rename_i h1 h2 h3 h4 h5
  rw [Prod.mk.injEq, Except.ok.injEq] at h
  exact ⟨not_not.mp h1, not_not.mp h2, h3, h4, by simpa using h5, h.1.symm, h.2.symm⟩

lemma applyUpdate_none (u : AppointmentUpdate) (a : Appointment)
    (hd : u.appointment_date = none) (ht : u.appointment_time = none)
    (hw : u.work_hours = none) : applyUpdate u a = a := by
  simp [applyUpdate, hd, ht, hw]

lemma update_ok_inv {tid m : Nat} {u : AppointmentUpdate} {today : Nat} {db db' : DB}
    (h : update_appointment tid m u today db = (.ok (), db')) :
    ∃ row, db.appointments.find? (fun a => a.appointment_id == tid) = some row ∧
      row.member_user_id = m ∧
      (row.status = .pending ∨ row.status = .confirmed) ∧
      pastOpt u.appointment_date today = false ∧
      nonPosOpt u.work_hours = false ∧
      ((u.appointment_date.isSome || u.appointment_time.isSome) &&
        hasConflictExcluding db.appointments row.caregiver_user_id
          (u.appointment_date.getD row.appointment_date)
          (u.appointment_time.getD row.appointment_time) tid) = false ∧
      db'.members = db.members ∧ db'.caregivers = db.caregivers ∧
      db'.next_id = db.next_id ∧
      db'.appointments = db.appointments.map
        (fun a => if a.appointment_id == tid then applyUpdate u a else a) := by
  unfold update_appointment at h
  split at h
  · exact absurd h (by simp)
  rename_i row hfind
  split at h
  · exact absurd h (by simp)
  rename_i hmem
  split at h
  · exact absurd h (by simp)
  rename_i hst
  split at h
  · exact absurd h (by simp)
  rename_i hpast
  split at h
  · exact absurd h (by simp)
  rename_i hpos
  split at h
  · exact absurd h (by simp)
  rename_i hconf
  refine ⟨row, hfind, not_not.mp (fun hne => hmem hne), not_not.mp hst,
    (by simpa using hpast), (by simpa using hpos), (by simpa using hconf), ?_⟩
  split at h
  · rename_i hnone
    have hnone' := hnone
    simp only [Bool.and_eq_true, Option.isNone_iff_eq_none] at hnone'
    obtain ⟨⟨hd, htm⟩, hw⟩ := hnone'
    rw [Prod.mk.injEq] at h
    obtain ⟨-, hdb⟩ := h
    subst hdb
    refine ⟨rfl, rfl, rfl, ?_⟩
    conv_lhs => rw [← List.map_id db.appointments]
    refine (List.map_congr_left (fun a ha => ?_)).symm.symm
    by_cases hid : (a.appointment_id == tid) = true
    · simp [hid, applyUpdate_none u a hd htm hw]
    · simp [hid]
  · rw [Prod.mk.injEq] at h
    obtain ⟨-, hdb⟩ := h
    subst hdb
    exact ⟨rfl, rfl, rfl, rfl⟩

lemma cancel_ok_inv {tid uid : Nat} {db db' : DB}
    (h : cancel_appointment tid uid db = (.ok (), db')) :
    ∃ row, db.appointments.find? (fun a => a.appointment_id == tid) = some row ∧
      (row.member_user_id = uid ∨ row.caregiver_user_id = uid) ∧
      (row.status = .pending ∨ row.status = .confirmed) ∧
      db' = { db with appointments := db.appointments.map fun a =>
          if a.appointment_id == tid then { a with status := AppointmentStatus.cancelled }
          else a } := by
  unfold cancel_appointment at h
  split at h
  · exact absurd h (by simp)
  rename_i row hfind
  split at h
  · exact absurd h (by simp)
  rename_i hperm
  split at h
  · exact absurd h (by simp)
  rename_i hst
  rw [Prod.mk.injEq] at h
  refine ⟨row, hfind, ?_, not_not.mp hst, h.2.symm⟩
  rcases not_and_or.mp hperm with h1 | h2
  · exact Or.inl (not_not.mp h1)
  · exact Or.inr (not_not.mp h2)

lemma confirm_ok_inv {tid cg : Nat} {db db' : DB}
    (h : confirm_appointment tid cg db = (.ok (), db')) :
    ∃ row, db.appointments.find? (fun a => a.appointment_id == tid) = some row ∧
      row.caregiver_user_id = cg ∧ row.status = .pending ∧
      db' = { db with appointments := db.appointments.map fun a =>
          if a.appointment_id == tid then { a with status := AppointmentStatus.confirmed }
          else a } := by
  unfold confirm_appointment at h
  split at h
  · exact absurd h (by simp)
  rename_i row hfind
  split at h
  · exact absurd h (by simp)
  rename_i hperm
  split at h
  · exact absurd h (by simp)
  rename_i hst
  rw [Prod.mk.injEq] at h
  exact ⟨row, hfind, not_not.mp hperm, not_not.mp hst, h.2.symm⟩

lemma decline_ok_inv {tid cg : Nat} {db db' : DB}
    (h : decline_appointment tid cg db = (.ok (), db')) :
    ∃ row, db.appointments.find? (fun a => a.appointment_id == tid) = some row ∧
      row.caregiver_user_id = cg ∧ row.status = .pending ∧
      db' = { db with appointments := db.appointments.map fun a =>
          if a.appointment_id == tid then { a with status := AppointmentStatus.declined }
          else a } := by
  unfold decline_appointment at h
  split at h
  · exact absurd h (by simp)
  rename_i row hfind
  split at h
  · exact absurd h (by simp)
  rename_i hperm
  split at h
  · exact absurd h (by simp)
  rename_i hst
  rw [Prod.mk.injEq] at h
  exact ⟨row, hfind, not_not.mp hperm, not_not.mp hst, h.2.symm⟩

lemma complete_ok_inv {tid uid : Nat} {db db' : DB}
    (h : complete_appointment tid uid db = (.ok (), db')) :
    ∃ row, db.appointments.find? (fun a => a.appointment_id == tid) = some row ∧
      (row.member_user_id = uid ∨ row.caregiver_user_id = uid) ∧
      row.status = .confirmed ∧
      db' = { db with appointments := db.appointments.map fun a =>
          if a.appointment_id == tid then { a with status := AppointmentStatus.completed }
          else a } := by
  unfold complete_appointment at h
  split at h
  · exact absurd h (by simp)
  rename_i row hfind
  split at h
  · exact absurd h (by simp)
  rename_i hperm
  split at h
  · exact absurd h (by simp)
  rename_i hst
  rw [Prod.mk.injEq] at h
  refine ⟨row, hfind, ?_, not_not.mp hst, h.2.symm⟩
  rcases not_and_or.mp hperm with h1 | h2
  · exact Or.inl (not_not.mp h1)
  · exact Or.inr (not_not.mp h2)

/-! ### Preservation of the no-double-booking invariant -/

lemma noDouble_setStatus_terminal {db : DB} {tid : Nat} {st : AppointmentStatus}
    (hterm : st.isTerminal = true) {row : Appointment}
    (hfind : db.appointments.find? (fun a => a.appointment_id == tid) = some row)
    (hids : IdsNodup db.appointments) (hnd : NoDouble db.appointments) :
    NoDouble (db.appointments.map fun a =>
      if a.appointment_id == tid then { a with status := st } else a) := by
  obtain ⟨l₁, l₂, hl, hid, h₁, h₂⟩ := find?_decomp _ _ _ hfind hids
  rw [hl, map_replace l₁ l₂ row tid _ hid h₁ h₂]
  apply noDouble_replace l₁ l₂ row _ (hl ▸ hnd)
  intro c d t hc
  rw [conflictsAt_iff] at hc
  exact absurd hc.2.2.2 (by simp [hterm])

lemma noDouble_setStatus_confirmed {db : DB} {tid : Nat} {row : Appointment}
    (hfind : db.appointments.find? (fun a => a.appointment_id == tid) = some row)
    (hpend : row.status = .pending)
    (hids : IdsNodup db.appointments) (hnd : NoDouble db.appointments) :
    NoDouble (db.appointments.map fun a =>
      if a.appointment_id == tid then { a with status := AppointmentStatus.confirmed }
      else a) := by
  obtain ⟨l₁, l₂, hl, hid, h₁, h₂⟩ := find?_decomp _ _ _ hfind hids
  rw [hl, map_replace l₁ l₂ row tid _ hid h₁ h₂]
  apply noDouble_replace l₁ l₂ row _ (hl ▸ hnd)
  intro c d t hc
  left
  rw [conflictsAt_iff] at hc ⊢
  exact ⟨hc.1, hc.2.1, hc.2.2.1, by simp [hpend, AppointmentStatus.isTerminal]⟩

lemma noDouble_applyUpdate {db : DB} {tid : Nat} {u : AppointmentUpdate}
    {row : Appointment}
    (hfind : db.appointments.find? (fun a => a.appointment_id == tid) = some row)
    (hconf : ((u.appointment_date.isSome || u.appointment_time.isSome) &&
        hasConflictExcluding db.appointments row.caregiver_user_id
          (u.appointment_date.getD row.appointment_date)
          (u.appointment_time.getD row.appointment_time) tid) = false)
    (hids : IdsNodup db.appointments) (hnd : NoDouble db.appointments) :
    NoDouble (db.appointments.map fun a =>
      if a.appointment_id == tid then applyUpdate u a else a) := by
  obtain ⟨l₁, l₂, hl, hid, h₁, h₂⟩ := find?_decomp _ _ _ hfind hids
  rw [hl, map_replace l₁ l₂ row tid _ hid h₁ h₂]
  apply noDouble_replace l₁ l₂ row _ (hl ▸ hnd)
  intro c d t hc
  by_cases hb : (u.appointment_date.isSome || u.appointment_time.isSome) = true
  · -- a date or a time was supplied: the conflict query ran and came back empty
    right
    have hcx : hasConflictExcluding db.appointments row.caregiver_user_id
        (u.appointment_date.getD row.appointment_date)
        (u.appointment_time.getD row.appointment_time) tid = false := by
      rcases Bool.and_eq_false_iff.mp hconf with h | h
      · exact absurd hb (by simp [h])
      · exact h
    have hall : ∀ a ∈ db.appointments,
        (conflictsAt row.caregiver_user_id
          (u.appointment_date.getD row.appointment_date)
          (u.appointment_time.getD row.appointment_time) a &&
          a.appointment_id != tid) = false := by
      simpa [hasConflictExcluding, List.any_eq_false] using hcx
    rw [conflictsAt_iff] at hc
    -- the new row's key determines (c, d, t)
    have hck : row.caregiver_user_id = c := hc.1
    have hdk : u.appointment_date.getD row.appointment_date = d := hc.2.1
    have htk : u.appointment_time.getD row.appointment_time = t := hc.2.2.1
    have other : ∀ a ∈ db.appointments, a.appointment_id ≠ tid →
        conflictsAt c d t a = false := by
      intro a ha hne
      have := hall a ha
      rw [Bool.and_eq_false_iff] at this
      rcases this with h | h
      · rw [← hck, ← hdk, ← htk]; exact h
      · exact absurd h (by simp [bne_iff_ne, hne])
    constructor
    · intro a ha
      exact other a (by rw [hl]; exact List.mem_append_left _ ha) (h₁ a ha)
    · intro a ha
      exact other a (by rw [hl]; exact List.mem_append_right _ (List.mem_cons_of_mem _ ha))
        (h₂ a ha)
  · -- nothing supplied for date or time: the row keeps its key and its status
    left
    have hb' : u.appointment_date = none ∧ u.appointment_time = none := by
      simpa using hb
    rw [← hc]
    apply conflictsAt_fields
    · rfl
    · simp [applyUpdate, hb'.1]
    · simp [applyUpdate, hb'.2]
    · simp [applyUpdate, hb'.1, hb'.2]

/-- C1: if the store contains at most one non-terminal (pending or confirmed)
appointment per caregiver/date/time, then after any single successful
appointment operation (create, update, cancel, confirm, decline, complete)
it still does.  Store well-formedness: `appointment_id` is the primary key,
so ids are pairwise distinct. -/
theorem runOp_preserves_noDouble (op : Operation) (today : Nat) (db db' : DB)
    (hids : IdsNodup db.appointments) (hnd : NoDouble db.appointments)
    (hrun : runOp op today db = (.ok (), db')) :
    NoDouble db'.appointments := by
  cases op with
  | createOp m ad =>
    simp only [runOp] at hrun
    rw [Prod.mk.injEq] at hrun
    obtain ⟨h1, h2⟩ := hrun
    cases hres : (create_appointment m ad today db).1 with
    | error e => rw [hres] at h1; exact absurd h1 (by simp [Except.map])
    | ok i =>
      have hcreate : create_appointment m ad today db = (.ok i, db') := by
        rw [Prod.ext_iff]; exact ⟨hres, h2⟩
      obtain ⟨-, -, -, -, hconf, -, hdb'⟩ := create_ok_inv hcreate
      rw [hdb']
      apply noDouble_append _ _ hnd
      intro c d t hc
      rw [conflictsAt_iff] at hc
      obtain ⟨hc1, hc2, hc3, -⟩ := hc
      rw [← hc1, ← hc2, ← hc3]
      exact hasConflict_false_count hconf
  | updateOp i m u =>
    simp only [runOp] at hrun
    obtain ⟨row, hfind, -, -, -, -, hconf, -, -, -, happts⟩ := update_ok_inv hrun
    rw [happts]
    exact noDouble_applyUpdate hfind hconf hids hnd
  | cancelOp i uid =>
    simp only [runOp] at hrun
    obtain ⟨row, hfind, -, -, hdb'⟩ := cancel_ok_inv hrun
    rw [hdb']
    exact noDouble_setStatus_terminal rfl hfind hids hnd
  | confirmOp i cg =>
    simp only [runOp] at hrun
    obtain ⟨row, hfind, -, hpend, hdb'⟩ := confirm_ok_inv hrun
    rw [hdb']
    exact noDouble_setStatus_confirmed hfind hpend hids hnd
  | declineOp i cg =>
    simp only [runOp] at hrun
    obtain ⟨row, hfind, -, -, hdb'⟩ := decline_ok_inv hrun
    rw [hdb']
    exact noDouble_setStatus_terminal rfl hfind hids hnd
  | completeOp i uid =>
    simp only [runOp] at hrun
    obtain ⟨row, hfind, -, -, hdb'⟩ := complete_ok_inv hrun
    rw [hdb']
    exact noDouble_setStatus_terminal rfl hfind hids hnd

/-! ### Lookup after an in-place UPDATE, and membership in the sorted listing -/

lemma find?_map_update (l : List Appointment) (tid : Nat)
    (f : Appointment → Appointment)
    (hf : ∀ a, (f a).appointment_id = a.appointment_id) :
    (l.map fun a => if a.appointment_id == tid then f a else a).find?
        (fun a => a.appointment_id == tid)
      = (l.find? (fun a => a.appointment_id == tid)).map
          (fun a => if a.appointment_id == tid then f a else a) := by
  induction l with
  | nil => rfl
  | cons b l ih =>
    simp only [List.map_cons]
    cases hb : b.appointment_id == tid with
    | true =>
      have hid : ((f b).appointment_id == tid) = true := by rw [hf]; exact hb
      rw [show (if true = true then f b else b) = f b from rfl,
        @List.find?_cons_of_pos _ (fun a => a.appointment_id == tid) (f b) _ hid,
        @List.find?_cons_of_pos _ (fun a => a.appointment_id == tid) b _ hb]
      have hb' : b.appointment_id = tid := by simpa using hb
      simp [hb']
    | false =>
      rw [show (if false = true then f b else b) = b from rfl]
      rw [@List.find?_cons_of_neg _ (fun a => a.appointment_id == tid) b
          (List.map (fun a => if (a.appointment_id == tid) = true then f a else a) l)
          (by simp [hb]),
        @List.find?_cons_of_neg _ (fun a => a.appointment_id == tid) b l (by simp [hb]), ih]

lemma mem_insertByOrder (x a : Appointment) (l : List Appointment) :
    x ∈ insertByOrder a l ↔ x = a ∨ x ∈ l := by
  induction l with
  | nil => simp [insertByOrder]
  | cons b l ih =>
    by_cases h : apptOrder a b = true
    · simp [insertByOrder, h]
    · simp only [insertByOrder, h, if_neg, Bool.false_eq_true, not_false_iff, if_false,
        List.mem_cons, ih]
      tauto

lemma mem_sortByOrder (x : Appointment) (l : List Appointment) :
    x ∈ sortByOrder l ↔ x ∈ l := by
  induction l with
  | nil => simp [sortByOrder]
  | cons a l ih => simp [sortByOrder, mem_insertByOrder, ih]

/-! ### Claim theorems -/

/-- C1 witness: a concrete creation against a concrete conflict-free store. -/
theorem runOp_preserves_noDouble_witness :
    IdsNodup (DB.mk [1] [2] [] 1).appointments ∧
    NoDouble (DB.mk [1] [2] [] 1).appointments ∧
    runOp (.createOp 1 ⟨2, 10, 5, 3⟩) 10 (DB.mk [1] [2] [] 1)
      = (.ok (), DB.mk [1] [2] [⟨1, 2, 1, 10, 5, 3, .pending⟩] 2) ∧
    NoDouble (DB.mk [1] [2] [⟨1, 2, 1, 10, 5, 3, .pending⟩] 2).appointments := by
  refine ⟨by simp [IdsNodup], fun c d t => by simp [nonTerminalCount], rfl, ?_⟩
  exact runOp_preserves_noDouble (.createOp 1 ⟨2, 10, 5, 3⟩) 10 (DB.mk [1] [2] [] 1)
    (DB.mk [1] [2] [⟨1, 2, 1, 10, 5, 3, .pending⟩] 2)
    (by simp [IdsNodup]) (fun c d t => by simp [nonTerminalCount]) rfl

/-- C2: a successful member update that actually changes the appointment date
or time leaves the appointment with status `pending`, even when the prior
status was `confirmed` (`status = 'pending'` is appended to the SET clause
whenever a date or a time is supplied). -/
theorem update_reschedule_resets_pending (appointment_id member_user_id today : Nat)
    (u : AppointmentUpdate) (db db' : DB) (row : Appointment)
    (hfind : db.appointments.find? (fun a => a.appointment_id == appointment_id)
      = some row)
    (hchange : u.appointment_date.getD row.appointment_date ≠ row.appointment_date ∨
        u.appointment_time.getD row.appointment_time ≠ row.appointment_time)
    (hrun : update_appointment appointment_id member_user_id u today db
      = (.ok (), db')) :
    db'.appointments.find? (fun a => a.appointment_id == appointment_id)
        = some (applyUpdate u row) ∧
    (applyUpdate u row).status = .pending := by
  obtain ⟨row', hfind', -, -, -, -, -, -, -, -, happts⟩ := update_ok_inv hrun
  rw [hfind] at hfind'
  obtain rfl : row = row' := by injection hfind'
  have hsome : (u.appointment_date.isSome || u.appointment_time.isSome) = true := by
    rcases hchange with h | h
    · cases hd : u.appointment_date with
      | none => rw [hd] at h; simp at h
      | some d => simp [hd]
    · cases ht : u.appointment_time with
      | none => rw [ht] at h; simp at h
      | some t => simp [ht]
  constructor
  · rw [happts, find?_map_update db.appointments appointment_id (applyUpdate u)
      (fun a => rfl), hfind]
    have hid : row.appointment_id = appointment_id := by
      simpa using List.find?_some hfind
    simp [hid]
  · simp [applyUpdate, hsome]

/-- C2 witness: rescheduling a concrete confirmed appointment to a new date. -/
theorem update_reschedule_resets_pending_witness :
    update_appointment 1 1 ⟨some 11, none, none⟩ 10
        (DB.mk [1] [2] [⟨1, 2, 1, 10, 5, 3, .confirmed⟩] 2)
      = (.ok (), DB.mk [1] [2] [⟨1, 2, 1, 11, 5, 3, .pending⟩] 2) ∧
    (DB.mk [1] [2] [⟨1, 2, 1, 11, 5, 3, .pending⟩] 2).appointments.find?
        (fun a => a.appointment_id == 1)
      = some (applyUpdate ⟨some 11, none, none⟩ ⟨1, 2, 1, 10, 5, 3, .confirmed⟩) ∧
    (applyUpdate ⟨some 11, none, none⟩ ⟨1, 2, 1, 10, 5, 3, .confirmed⟩).status
      = .pending := by
  refine ⟨rfl, ?_⟩
  exact update_reschedule_resets_pending 1 1 10 ⟨some 11, none, none⟩
    (DB.mk [1] [2] [⟨1, 2, 1, 10, 5, 3, .confirmed⟩] 2)
    (DB.mk [1] [2] [⟨1, 2, 1, 11, 5, 3, .pending⟩] 2)
    ⟨1, 2, 1, 10, 5, 3, .confirmed⟩ rfl (Or.inl (by simp)) rfl

/-- C3: confirm and decline called by the appointment's own caregiver on a
non-`pending` appointment fail with `InvalidState` (an error, not a no-op
success) and leave the store, hence the status, unchanged. -/
theorem confirm_decline_nonpending_invalidState
    (appointment_id caregiver_user_id : Nat) (db : DB) (row : Appointment)
    (hfind : db.appointments.find? (fun a => a.appointment_id == appointment_id)
      = some row)
    (hcg : row.caregiver_user_id = caregiver_user_id)
    (hst : row.status ≠ .pending) :
    confirm_appointment appointment_id caregiver_user_id db
        = (.error (.invalidState row.status), db) ∧
    decline_appointment appointment_id caregiver_user_id db
        = (.error (.invalidState row.status), db) ∧
    (ApiError.invalidState row.status).errClass = ErrorClass.invalidState := by
  refine ⟨?_, ?_, rfl⟩
  · unfold confirm_appointment
    rw [hfind]
    simp [hcg, hst]
  · unfold decline_appointment
    rw [hfind]
    simp [hcg, hst]

/-- C3 witness: confirming/declining a concrete completed appointment. -/
theorem confirm_decline_nonpending_invalidState_witness :
    confirm_appointment 1 2 (DB.mk [1] [2] [⟨1, 2, 1, 10, 5, 3, .completed⟩] 2)
        = (.error (.invalidState .completed),
           DB.mk [1] [2] [⟨1, 2, 1, 10, 5, 3, .completed⟩] 2) ∧
    decline_appointment 1 2 (DB.mk [1] [2] [⟨1, 2, 1, 10, 5, 3, .completed⟩] 2)
        = (.error (.invalidState .completed),
           DB.mk [1] [2] [⟨1, 2, 1, 10, 5, 3, .completed⟩] 2) := by
  have h := confirm_decline_nonpending_invalidState 1 2
    (DB.mk [1] [2] [⟨1, 2, 1, 10, 5, 3, .completed⟩] 2)
    ⟨1, 2, 1, 10, 5, 3, .completed⟩ rfl rfl (by simp)
  exact ⟨h.1, h.2.1⟩

/-- C4 counterexample: with a past date but an unknown member id, creation
fails with `NotFound` (member lookup runs first), not with `InvalidInput` as
the claim states. -/
theorem create_past_date_unknown_member_counterexample :
    (3 : Nat) < 5 ∧
    (create_appointment 1 ⟨2, 3, 0, 1⟩ 5 (DB.mk [] [] [] 1)).1
        = .error .memberNotFound ∧
    ApiError.memberNotFound.errClass ≠ ErrorClass.invalidInput := by
  exact ⟨by decide, rfl, by decide⟩

/-- C4 (amended): when the supplied member and caregiver both exist, a
creation whose date is strictly earlier than the current date fails with
`InvalidInput` (HTTP 400), regardless of `work_hours` and of the stored
appointments, and the store is unchanged. -/
theorem create_past_date_invalidInput (member_user_id today : Nat)
    (ad : AppointmentCreate) (db : DB)
    (hm : member_user_id ∈ db.members) (hc : ad.caregiver_user_id ∈ db.caregivers)
    (hd : ad.appointment_date < today) :
    create_appointment member_user_id ad today db = (.error .pastDate, db) ∧
    ApiError.pastDate.errClass = ErrorClass.invalidInput ∧
    ApiError.pastDate.httpStatus = 400 := by
  refine ⟨?_, rfl, rfl⟩
  unfold create_appointment
  simp [hm, hc, hd]

/-- C4 witness: a concrete past-date creation against a valid directory. -/
theorem create_past_date_invalidInput_witness :
    (1 : Nat) ∈ [1] ∧ (2 : Nat) ∈ [2] ∧ (7 : Nat) < 9 ∧
    create_appointment 1 ⟨2, 7, 0, 2⟩ 9 (DB.mk [1] [2] [] 1)
      = (.error .pastDate, DB.mk [1] [2] [] 1) := by
  refine ⟨by decide, by decide, by decide, ?_⟩
  exact (create_past_date_invalidInput 1 9 ⟨2, 7, 0, 2⟩ (DB.mk [1] [2] [] 1)
    (by decide) (by decide) (by decide)).1

/-- C5: for an existing appointment and an actor who is its member or its
caregiver, cancellation succeeds exactly from `pending` or `confirmed`
(transitioning the row to `cancelled`); from `completed`, `cancelled` or
`declined` it fails with `InvalidState` and the store is unchanged. -/
theorem cancel_status_rules (appointment_id user_id : Nat) (db : DB)
    (row : Appointment)
    (hfind : db.appointments.find? (fun a => a.appointment_id == appointment_id)
      = some row)
    (hactor : row.member_user_id = user_id ∨ row.caregiver_user_id = user_id) :
    ((row.status = .pending ∨ row.status = .confirmed) →
      cancel_appointment appointment_id user_id db
        = (.ok (), { db with appointments := db.appointments.map fun a =>
            if a.appointment_id == appointment_id then
              { a with status := AppointmentStatus.cancelled } else a }) ∧
      ({ db with appointments := db.appointments.map fun a =>
            if a.appointment_id == appointment_id then
              { a with status := AppointmentStatus.cancelled }
            else a } : DB).appointments.find?
          (fun a => a.appointment_id == appointment_id)
        = some { row with status := AppointmentStatus.cancelled }) ∧
    (¬ (row.status = .pending ∨ row.status = .confirmed) →
      cancel_appointment appointment_id user_id db
        = (.error (.invalidState row.status), db) ∧
      (ApiError.invalidState row.status).errClass = ErrorClass.invalidState) := by
  have hperm : ¬ (row.member_user_id ≠ user_id ∧ row.caregiver_user_id ≠ user_id) := by
    rintro ⟨h1, h2⟩
    rcases hactor with h | h
    · exact h1 h
    · exact h2 h
  constructor
  · intro hs
    constructor
    · unfold cancel_appointment
      rw [hfind]
      simp [hperm, hs]
    · rw [find?_map_update db.appointments appointment_id
        (fun a => { a with status := AppointmentStatus.cancelled }) (fun a => rfl),
        hfind]
      have hid : row.appointment_id = appointment_id := by
        simpa using List.find?_some hfind
      simp [hid]
  · intro hs
    refine ⟨?_, rfl⟩
    unfold cancel_appointment
    rw [hfind]
    simp [hperm, hs]

/-- C5 witness: cancelling a concrete confirmed appointment as its member,
and a concrete completed appointment (rejected). -/
theorem cancel_status_rules_witness :
    cancel_appointment 1 1 (DB.mk [1] [2] [⟨1, 2, 1, 10, 5, 3, .confirmed⟩] 2)
      = (.ok (), DB.mk [1] [2] [⟨1, 2, 1, 10, 5, 3, .cancelled⟩] 2) ∧
    cancel_appointment 7 1 (DB.mk [1] [2] [⟨7, 2, 1, 10, 5, 3, .completed⟩] 8)
      = (.error (.invalidState .completed),
         DB.mk [1] [2] [⟨7, 2, 1, 10, 5, 3, .completed⟩] 8) := by
  constructor
  · exact ((cancel_status_rules 1 1 (DB.mk [1] [2] [⟨1, 2, 1, 10, 5, 3, .confirmed⟩] 2)
      ⟨1, 2, 1, 10, 5, 3, .confirmed⟩ rfl (Or.inl rfl)).1 (Or.inr rfl)).1
  · exact ((cancel_status_rules 7 1 (DB.mk [1] [2] [⟨7, 2, 1, 10, 5, 3, .completed⟩] 8)
      ⟨7, 2, 1, 10, 5, 3, .completed⟩ rfl (Or.inl rfl)).2 (by simp)).1

/-- C6: every failing creation — member/caregiver not found, past date,
non-positive hours or scheduling conflict — leaves the appointment store
exactly as it was (every raise happens before the INSERT). -/
theorem create_error_frame (member_user_id today : Nat) (ad : AppointmentCreate)
    (db : DB) (e : ApiError)
    (h : (create_appointment member_user_id ad today db).1 = .error e) :
    (create_appointment member_user_id ad today db).2 = db := by
  revert h
  unfold create_appointment
  split
  · intro h; rfl
  split
  · intro h; rfl
  split
  · intro h; rfl
  split
  · intro h; rfl
  split
  · intro h; rfl
  intro h
  exact absurd h (by simp)

/-- C6 witness: a conflicting concrete creation writes nothing. -/
theorem create_error_frame_witness :
    (create_appointment 1 ⟨2, 10, 5, 4⟩ 10
        (DB.mk [1] [2] [⟨1, 2, 1, 10, 5, 3, .pending⟩] 2)).1 = .error .conflict ∧
    (create_appointment 1 ⟨2, 10, 5, 4⟩ 10
        (DB.mk [1] [2] [⟨1, 2, 1, 10, 5, 3, .pending⟩] 2)).2
      = DB.mk [1] [2] [⟨1, 2, 1, 10, 5, 3, .pending⟩] 2 := by
  refine ⟨rfl, ?_⟩
  exact create_error_frame 1 10 ⟨2, 10, 5, 4⟩
    (DB.mk [1] [2] [⟨1, 2, 1, 10, 5, 3, .pending⟩] 2) .conflict rfl

/-- C7: a successful partial update rewrites only the addressed row — every
other appointment, the member and caregiver tables and the id counter are
untouched — and on the addressed row the id, caregiver and member never
change, unsupplied fields keep their prior values, and status is the sole
extra change (reset to `pending` exactly when a date or a time is supplied). -/
theorem update_partial_frame (appointment_id member_user_id today : Nat)
    (u : AppointmentUpdate) (db db' : DB)
    (hrun : update_appointment appointment_id member_user_id u today db
      = (.ok (), db')) :
    db'.appointments = db.appointments.map
      (fun a => if a.appointment_id == appointment_id then applyUpdate u a else a) ∧
    db'.members = db.members ∧ db'.caregivers = db.caregivers ∧
    db'.next_id = db.next_id ∧
    (∀ a : Appointment, (applyUpdate u a).appointment_id = a.appointment_id) ∧
    (∀ a : Appointment, (applyUpdate u a).caregiver_user_id = a.caregiver_user_id) ∧
    (∀ a : Appointment, (applyUpdate u a).member_user_id = a.member_user_id) ∧
    (∀ a : Appointment, u.appointment_date = none →
      (applyUpdate u a).appointment_date = a.appointment_date) ∧
    (∀ a : Appointment, u.appointment_time = none →
      (applyUpdate u a).appointment_time = a.appointment_time) ∧
    (∀ a : Appointment, u.work_hours = none →
      (applyUpdate u a).work_hours = a.work_hours) ∧
    (∀ a : Appointment, u.appointment_date = none → u.appointment_time = none →
      (applyUpdate u a).status = a.status) := by
  obtain ⟨row, -, -, -, -, -, -, hm, hc, hn, happts⟩ := update_ok_inv hrun
  refine ⟨happts, hm, hc, hn, fun a => rfl, fun a => rfl, fun a => rfl,
    fun a hd => by simp [applyUpdate, hd],
    fun a ht => by simp [applyUpdate, ht],
    fun a hw => by simp [applyUpdate, hw],
    fun a hd ht => by simp [applyUpdate, hd, ht]⟩

/-- C7 witness: a concrete hours-only update touches nothing else. -/
theorem update_partial_frame_witness :
    update_appointment 1 1 ⟨none, none, some 6⟩ 10
        (DB.mk [1] [2] [⟨1, 2, 1, 10, 5, 3, .confirmed⟩] 2)
      = (.ok (), DB.mk [1] [2] [⟨1, 2, 1, 10, 5, 6, .confirmed⟩] 2) ∧
    (DB.mk [1] [2] [⟨1, 2, 1, 10, 5, 6, .confirmed⟩] 2).appointments
      = (DB.mk [1] [2] [⟨1, 2, 1, 10, 5, 3, .confirmed⟩] 2).appointments.map
          (fun a => if a.appointment_id == 1 then applyUpdate ⟨none, none, some 6⟩ a
            else a) := by
  refine ⟨rfl, ?_⟩
  exact (update_partial_frame 1 1 10 ⟨none, none, some 6⟩
    (DB.mk [1] [2] [⟨1, 2, 1, 10, 5, 3, .confirmed⟩] 2)
    (DB.mk [1] [2] [⟨1, 2, 1, 10, 5, 6, .confirmed⟩] 2) rfl).1

/-- C8: a successful cancellation keeps the row in the store (same length,
the row still found under its id) and only its status changes, to
`cancelled`; every other row is untouched. -/
theorem cancel_keeps_row (appointment_id user_id : Nat) (db db' : DB)
    (hrun : cancel_appointment appointment_id user_id db = (.ok (), db')) :
    db'.appointments = db.appointments.map
      (fun a => if a.appointment_id == appointment_id then
        { a with status := AppointmentStatus.cancelled } else a) ∧
    db'.appointments.length = db.appointments.length ∧
    ∃ row, db.appointments.find? (fun a => a.appointment_id == appointment_id)
        = some row ∧
      db'.appointments.find? (fun a => a.appointment_id == appointment_id)
        = some { row with status := AppointmentStatus.cancelled } := by
  obtain ⟨row, hfind, -, -, hdb'⟩ := cancel_ok_inv hrun
  subst hdb'
  refine ⟨rfl, by simp, row, hfind, ?_⟩
  rw [show ({ db with appointments := db.appointments.map fun a =>
      if a.appointment_id == appointment_id then
        { a with status := AppointmentStatus.cancelled } else a } : DB).appointments
    = db.appointments.map (fun a => if a.appointment_id == appointment_id then
        { a with status := AppointmentStatus.cancelled } else a) from rfl,
    find?_map_update db.appointments appointment_id
      (fun a => { a with status := AppointmentStatus.cancelled }) (fun a => rfl),
    hfind]
  have hid : row.appointment_id = appointment_id := by
    simpa using List.find?_some hfind
  simp [hid]

/-- C8 witness: cancelling a concrete pending appointment keeps the row. -/
theorem cancel_keeps_row_witness :
    cancel_appointment 4 2 (DB.mk [1] [2] [⟨4, 2, 1, 12, 6, 2, .pending⟩] 5)
      = (.ok (), DB.mk [1] [2] [⟨4, 2, 1, 12, 6, 2, .cancelled⟩] 5) ∧
    (DB.mk [1] [2] [⟨4, 2, 1, 12, 6, 2, .cancelled⟩] 5).appointments.length
      = (DB.mk [1] [2] [⟨4, 2, 1, 12, 6, 2, .pending⟩] 5).appointments.length ∧
    ∃ row, (DB.mk [1] [2] [⟨4, 2, 1, 12, 6, 2, .pending⟩] 5).appointments.find?
        (fun a => a.appointment_id == 4) = some row ∧
      (DB.mk [1] [2] [⟨4, 2, 1, 12, 6, 2, .cancelled⟩] 5).appointments.find?
        (fun a => a.appointment_id == 4)
        = some { row with status := AppointmentStatus.cancelled } := by
  refine ⟨rfl, ?_⟩
  exact (cancel_keeps_row 4 2 (DB.mk [1] [2] [⟨4, 2, 1, 12, 6, 2, .pending⟩] 5)
    (DB.mk [1] [2] [⟨4, 2, 1, 12, 6, 2, .cancelled⟩] 5) rfl).2

/-- C9 counterexample: the empty string is not one of the five status values,
yet `if status_filter:` is false for it in Python, so the listing succeeds
with the unfiltered list instead of failing with `InvalidInput`. -/
theorem member_listing_empty_filter_counterexample :
    ("" ∉ ["pending", "confirmed", "declined", "cancelled", "completed"]) ∧
    (get_member_appointments 1 (some "")
        (DB.mk [1] [2] [⟨1, 2, 1, 10, 5, 2, .pending⟩] 2)).1
      = .ok [⟨1, 2, 1, 10, 5, 2, .pending⟩] := by
  exact ⟨by decide, rfl⟩

/-- C9 (amended): for an existing member, a NON-EMPTY status filter that is
not one of the five enum values fails with `InvalidInput` (HTTP 400) and no
list is produced; a filter equal to one of the five values returns exactly the
member's appointments with that status (an empty or absent filter applies no
restriction).  Referential integrity of the store (every appointment's
caregiver exists) is assumed, matching the SQL JOINs. -/
theorem member_listing_filter_rules (member_user_id : Nat) (s : String) (db : DB)
    (hm : member_user_id ∈ db.members)
    (hri : ∀ a ∈ db.appointments, a.caregiver_user_id ∈ db.caregivers) :
    (s ≠ "" → statusOfString s = none →
      get_member_appointments member_user_id (some s) db
        = (.error .invalidStatusFilter, db) ∧
      ApiError.invalidStatusFilter.errClass = ErrorClass.invalidInput ∧
      ApiError.invalidStatusFilter.httpStatus = 400) ∧
    (∀ st, statusOfString s = some st →
      ∃ l, (get_member_appointments member_user_id (some s) db).1 = .ok l ∧
        ∀ a, a ∈ l ↔ (a ∈ db.appointments ∧ a.member_user_id = member_user_id ∧
          a.status = st)) := by
  constructor
  · intro hne hnone
    refine ⟨?_, rfl, rfl⟩
    unfold get_member_appointments
    simp [hm, hne, hnone]
  · intro st hsome
    have hne : s ≠ "" := by
      intro h
      rw [h] at hsome
      simp [statusOfString] at hsome
    refine ⟨sortByOrder
      ((db.appointments.filter (memberListingRow db member_user_id)).filter
        (fun a => a.status == st)), ?_, ?_⟩
    · unfold get_member_appointments
      simp [hm, hne, hsome]
    · intro a
      rw [mem_sortByOrder]
      simp only [List.mem_filter, memberListingRow, Bool.and_eq_true, beq_iff_eq,
        and_assoc, List.contains_iff_exists_mem_beq]
      constructor
      · rintro ⟨ha, hmm, -, -, hstat⟩
        exact ⟨ha, hmm, hstat⟩
      · rintro ⟨ha, hmem, hstat⟩
        refine ⟨ha, hmem, ⟨a.caregiver_user_id, hri a ha, by simp⟩,
          ⟨a.member_user_id, ?_, by simp⟩, hstat⟩
        rw [hmem]
        exact hm

/-- C9 witness: a valid `pending` filter on a concrete two-row store. -/
theorem member_listing_filter_rules_witness :
    (1 : Nat) ∈ [1] ∧ statusOfString "pending" = some .pending ∧
    ∃ l, (get_member_appointments 1 (some "pending")
        (DB.mk [1] [2] [⟨1, 2, 1, 10, 5, 2, .pending⟩,
          ⟨2, 2, 1, 11, 6, 2, .completed⟩] 3)).1 = .ok l ∧
      ∀ a, a ∈ l ↔ (a ∈ [(⟨1, 2, 1, 10, 5, 2, .pending⟩ : Appointment),
          ⟨2, 2, 1, 11, 6, 2, .completed⟩] ∧ a.member_user_id = 1 ∧
          a.status = .pending) := by
  refine ⟨by decide, rfl, ?_⟩
  exact (member_listing_filter_rules 1 "pending"
    (DB.mk [1] [2] [⟨1, 2, 1, 10, 5, 2, .pending⟩, ⟨2, 2, 1, 11, 6, 2, .completed⟩] 3)
    (by decide) (by decide)).2 .pending rfl

/-- C10 (implicit): supplying a date or time equal to the appointment's current
value is still treated as a reschedule — for a `confirmed` appointment updated
by its member with its current date (or time), the conflict query runs (a
conflicting other row yields `Conflict`) and on success the status is reset to
`pending`. -/
theorem update_same_datetime_still_reschedules
    (appointment_id member_user_id today : Nat) (u : AppointmentUpdate) (db : DB)
    (row : Appointment)
    (hfind : db.appointments.find? (fun a => a.appointment_id == appointment_id)
      = some row)
    (hmem : row.member_user_id = member_user_id)
    (hst : row.status = .confirmed)
    (hsame : u.appointment_date = some row.appointment_date ∨
        u.appointment_time = some row.appointment_time)
    (hvd : pastOpt u.appointment_date today = false)
    (hvw : nonPosOpt u.work_hours = false) :
    (hasConflictExcluding db.appointments row.caregiver_user_id
        (u.appointment_date.getD row.appointment_date)
        (u.appointment_time.getD row.appointment_time) appointment_id = true →
      update_appointment appointment_id member_user_id u today db
        = (.error .conflict, db)) ∧
    (hasConflictExcluding db.appointments row.caregiver_user_id
        (u.appointment_date.getD row.appointment_date)
        (u.appointment_time.getD row.appointment_time) appointment_id = false →
      ∃ db', update_appointment appointment_id member_user_id u today db
          = (.ok (), db') ∧
        db'.appointments.find? (fun a => a.appointment_id == appointment_id)
          = some (applyUpdate u row) ∧
        (applyUpdate u row).status = .pending) := by
  have hsome : (u.appointment_date.isSome || u.appointment_time.isSome) = true := by
    rcases hsame with h | h <;> simp [h]
  constructor
  · intro hcx
    unfold update_appointment
    rw [hfind]
    simp [hmem, hst, hvd, hvw, hsome, hcx]
  · intro hcx
    refine ⟨{ db with appointments := db.appointments.map fun a =>
        if a.appointment_id == appointment_id then applyUpdate u a else a },
      ?_, ?_, ?_⟩
    · unfold update_appointment
      rw [hfind]
      have hnotnone : (u.appointment_date.isNone && u.appointment_time.isNone &&
          u.work_hours.isNone) = false := by
        rcases hsame with h | h <;> simp [h]
      simp [hmem, hst, hvd, hvw, hsome, hcx, hnotnone]
    · rw [show ({ db with appointments := db.appointments.map fun a =>
          if a.appointment_id == appointment_id then applyUpdate u a else a } :
            DB).appointments
        = db.appointments.map (fun a => if a.appointment_id == appointment_id then
            applyUpdate u a else a) from rfl,
        find?_map_update db.appointments appointment_id (applyUpdate u)
          (fun a => rfl), hfind]
      have hid : row.appointment_id = appointment_id := by
        simpa using List.find?_some hfind
      simp [hid]
    · simp [applyUpdate, hsome]

/-- C10 witness: a concrete confirmed appointment updated with its current
date; no conflicting row exists, so the update succeeds and re-pends. -/
theorem update_same_datetime_still_reschedules_witness :
    hasConflictExcluding
        (DB.mk [1] [2] [⟨1, 2, 1, 10, 5, 3, .confirmed⟩] 2).appointments 2 10 5 1
      = false ∧
    ∃ db', update_appointment 1 1 ⟨some 10, none, none⟩ 10
        (DB.mk [1] [2] [⟨1, 2, 1, 10, 5, 3, .confirmed⟩] 2) = (.ok (), db') ∧
      db'.appointments.find? (fun a => a.appointment_id == 1)
        = some (applyUpdate ⟨some 10, none, none⟩ ⟨1, 2, 1, 10, 5, 3, .confirmed⟩) ∧
      (applyUpdate ⟨some 10, none, none⟩ ⟨1, 2, 1, 10, 5, 3, .confirmed⟩).status
        = .pending := by
  refine ⟨rfl, ?_⟩
  exact (update_same_datetime_still_reschedules 1 1 10 ⟨some 10, none, none⟩
    (DB.mk [1] [2] [⟨1, 2, 1, 10, 5, 3, .confirmed⟩] 2)
    ⟨1, 2, 1, 10, 5, 3, .confirmed⟩ rfl rfl rfl (Or.inl rfl) rfl rfl).2 rfl
